import Mathlib

/-!
Verification development for the fact_llm repository.

Shallow embedding of the Retrieval and Verdict Aggregation Engine:
`src/vector_store.py` (VectorStore over a faiss IndexFlatIP),
`src/retriever.py` (EnhancedFactRetriever.retrieve_similar_facts),
`src/fact_checker.py` (FactChecker.check_claim and _aggregate_results),
`src/llm_client.py` (GroqClient.fact_check_claim and its error paths),
`src/claim_extractor.py` (ClaimExtractor.extract_claims).

Modelling conventions:
- Python floats are modelled exactly as rationals (no rounding is relevant
  to any property proved here).
- A Python function call either returns a value or raises; fallible
  functions are modelled in `Except PyErr`.  A function whose body catches
  every exception (such as `VectorStore.search`) always produces `.ok`.
- External collaborators (the sentence-transformer embedding model, spaCy
  segmentation, the Groq HTTP transport, `json.loads`) are taken as
  function parameters; the faiss index operations, which are library
  calls, are modelled from the specification of cosine top-k search.
-/

namespace FactLLM

/-- Elementwise dot product of two vectors, zero-padded past the shorter
length (the source always applies it to equal-length vectors). -/
def dot : List ℚ → List ℚ → ℚ
  | x :: xs, y :: ys => x * y + dot xs ys
  | _, _ => 0

/-- Sum of squares of the entries, used as the squared L2 norm. -/
def normSq (v : List ℚ) : ℚ := dot v v

/-- Integer square root by exhaustive count (structural, kernel friendly):
the number of m in [0, n] with m * m ≤ n is floor(sqrt n) + 1. -/
def natSqrtL (n : ℕ) : ℕ :=
  ((List.range (n + 1)).filter (fun m => m * m ≤ n)).length - 1

/-- Exact square root of a nonnegative rational when it exists in ℚ
(numerator and denominator of the reduced form both perfect squares). -/
def ratSqrt (x : ℚ) : Option ℚ :=
  if 0 ≤ x.num ∧ natSqrtL x.num.toNat * natSqrtL x.num.toNat = x.num.toNat
      ∧ natSqrtL x.den * natSqrtL x.den = x.den
  then some ((natSqrtL x.num.toNat : ℚ) / (natSqrtL x.den : ℚ))
  else none

/-- Modelled from the spec: `faiss.normalize_L2` divides a vector by its
L2 norm so that inner product equals cosine similarity (the call in
`VectorStore.add_embeddings` and `VectorStore.search` is a faiss library
call, not source of this repository).  Over ℚ the division is exact when
the norm is rational; otherwise the vector is left unscaled.  No theorem
below depends on the value produced in the irrational case, and the zero
vector is left unchanged. -/
def normalizeL2 (v : List ℚ) : List ℚ :=
  match ratSqrt (normSq v) with
  | some r => if r = 0 then v else v.map (fun x => x / r)
  | none => v

/-- The in-memory faiss `IndexFlatIP`: a fixed dimension `d` plus the
stored (already L2-normalized) vectors in insertion order. -/
structure FaissIndex where
  d : ℕ
  vecs : List (List ℚ)
deriving DecidableEq, Repr

/-- Ranking order used by the modelled faiss search: higher similarity
first, exact ties broken by lower insertion id. -/
def rankBefore (a b : ℤ × ℚ) : Prop :=
  b.2 < a.2 ∨ (a.2 = b.2 ∧ a.1 ≤ b.1)

instance : DecidableRel rankBefore := fun a b => by
  unfold rankBefore; infer_instance

instance : IsTotal (ℤ × ℚ) rankBefore :=
  ⟨by
    intro a b
    rcases lt_trichotomy a.2 b.2 with h | h | h
    · exact Or.inr (Or.inl h)
    · rcases le_total a.1 b.1 with h1 | h1
      · exact Or.inl (Or.inr ⟨h, h1⟩)
      · exact Or.inr (Or.inr ⟨h.symm, h1⟩)
    · exact Or.inl (Or.inl h)⟩

instance : IsTrans (ℤ × ℚ) rankBefore :=
  ⟨by
    intro a b c hab hbc
    rcases hab with hab | ⟨hab, hab'⟩ <;> rcases hbc with hbc | ⟨hbc, hbc'⟩
    · exact Or.inl (hbc.trans hab)
    · exact Or.inl (hbc ▸ hab)
    · exact Or.inl (hab ▸ hbc)
    · exact Or.inr ⟨hab.trans hbc, hab'.trans hbc'⟩⟩

/-- Similarity value faiss reports for padding entries when `k` exceeds
the number of stored vectors (in faiss it is -FLT_MAX; the caller keeps
only entries with similarity > 0, so any negative stand-in is
observationally equivalent). -/
def padSim : ℚ := -2

/-- The (insertion id, inner-product similarity) pair of every stored
vector against an already-normalized query. -/
def simPairs (idx : FaissIndex) (qn : List ℚ) : List (ℤ × ℚ) :=
  (List.range idx.vecs.length).map
    (fun (i : ℕ) => ((i : ℤ), dot qn (idx.vecs.getD i [])))

/-- Modelled from the spec: `faiss.IndexFlatIP.search` — exact brute-force
top-k by inner product over the stored normalized vectors, results in
similarity-descending order with ties broken by lower insertion id, padded
with id -1 entries up to `k` columns when the index holds fewer records.
A nonpositive `k` yields no real entries (the source call site catches any
faiss error and an empty result assembles to the same value). -/
def FaissIndex.search (idx : FaissIndex) (q : List ℚ) (k : ℤ) : List (ℤ × ℚ) :=
  let sorted := List.insertionSort rankBefore (simPairs idx (normalizeL2 q))
  sorted.take k.toNat ++ List.replicate (k.toNat - sorted.length) ((-1 : ℤ), padSim)

/-- One metadata entry: `content` is always present in the corpus records;
`source` is optional and read with default "unknown". -/
structure MetaRecord where
  content : String
  source : Option String
deriving DecidableEq, Repr

/-- Python exceptions surfaced by the modelled code. -/
inductive PyErr where
  | valueError (msg : String)
  | indexError (msg : String)
  | fileNotFoundError (msg : String)
deriving DecidableEq, Repr

/-- `VectorStore` from src/vector_store.py: file paths, an optional faiss
index, and the parallel metadata list. -/
structure VectorStore where
  index_path : String
  metadata_path : String
  index : Option FaissIndex
  metadata : List MetaRecord
deriving DecidableEq, Repr

/-- One retrieval result assembled by `VectorStore.search`. -/
structure Candidate where
  similarity : ℚ
  content : String
  source : String
  id : ℤ
deriving DecidableEq, Repr

/-- Python list indexing, total: negative indices address from the end
(unreachable in `search` because padding entries fail the similarity
guard); out-of-range yields a default. -/
def pyGetMeta (m : List MetaRecord) (i : ℤ) : MetaRecord :=
  if 0 ≤ i then m.getD i.toNat ⟨"", none⟩
  else m.getD (m.length - i.natAbs) ⟨"", none⟩

/-- Result-row assembly in `VectorStore.search`. -/
def toCandidate (m : List MetaRecord) (p : ℤ × ℚ) : Candidate :=
  { similarity := p.2
    content := (pyGetMeta m p.1).content
    source := (pyGetMeta m p.1).source.getD "unknown"
    id := p.1 }

/-- `VectorStore.create_index`: installs a fresh empty faiss index of the
given dimension (the source performs no validation of the dimension and
does not reset the metadata list). -/
def VectorStore.create_index (st : VectorStore) (embedding_dim : ℕ) : VectorStore :=
  { st with index := some { d := embedding_dim, vecs := [] } }

/-- Width of a numpy 2-D batch: `embeddings.shape[1]` exists exactly when
the rows are nonempty and uniform; a ragged or empty batch has shape (N,)
and `shape[1]` raises IndexError in the source. -/
def pyShape1 (embeddings : List (List ℚ)) : Option ℕ :=
  match embeddings with
  | [] => none
  | v :: vs => if vs.all (fun w => w.length = v.length) then some v.length else none

/-- `VectorStore.add_embeddings`: guards (initialized index, matching
lengths, matching dimension) all run before any mutation, so a failing
batch leaves the store untouched; on success the L2-normalized vectors and
the metadata are appended in input order.  The numpy-type cleaning loop in
the source is the identity on the modelled plain records. -/
def VectorStore.add_embeddings (st : VectorStore) (embeddings : List (List ℚ))
    (metadata : List MetaRecord) : Except PyErr VectorStore :=
  match st.index with
  | none => .error (.valueError "Index not initialized. Call create_index first.")
  | some idx =>
    if embeddings.length ≠ metadata.length then
      .error (.valueError "Number of embeddings must match number of metadata entries")
    else
      match pyShape1 embeddings with
      | none => .error (.indexError "tuple index out of range")
      | some w =>
        if w ≠ idx.d then
          .error (.valueError "Embedding dimension mismatch")
        else
          .ok { st with
                index := some { idx with vecs := idx.vecs ++ embeddings.map normalizeL2 }
                metadata := st.metadata ++ metadata }

/-- `VectorStore.search`: returns the empty list when the index is
missing, empty, or the query length disagrees with the index dimension
(the source prints a diagnostic and returns [] in each of those cases);
otherwise queries faiss and keeps rows whose id is in metadata range and
whose similarity is strictly positive.  The body catches every exception,
so the call always returns normally. -/
def VectorStore.search (st : VectorStore) (q : List ℚ) (k : ℤ) :
    Except PyErr (List Candidate) :=
  match st.index with
  | none => .ok []
  | some idx =>
    if idx.vecs.length = 0 then .ok []
    else if q.length ≠ idx.d then .ok []
    else
      .ok (((idx.search q k).filter
        (fun p => decide (p.1 < (st.metadata.length : ℤ) ∧ 0 < p.2))).map
          (toCandidate st.metadata))

/-- On-disk snapshot: the faiss index file and the metadata JSON file,
either of which may be absent on disk. -/
structure Snapshot where
  indexFile : Option FaissIndex
  metadataFile : Option (List MetaRecord)
deriving DecidableEq, Repr

/-- `VectorStore.save`: raises when no index exists, otherwise writes both
files (faiss serialization and the JSON metadata round-trip exactly in the
model). -/
def VectorStore.save (st : VectorStore) : Except PyErr Snapshot :=
  match st.index with
  | none => .error (.valueError "No index to save")
  | some idx => .ok { indexFile := some idx, metadataFile := some st.metadata }

/-- `VectorStore.load`: raises FileNotFoundError when the index file is
absent; otherwise installs the stored index, and replaces the metadata
only when the metadata file exists (a missing metadata file just prints a
warning and keeps the previous list).  No consistency check between vector
count and metadata count is performed. -/
def VectorStore.load (st : VectorStore) (snap : Snapshot) : Except PyErr VectorStore :=
  match snap.indexFile with
  | none => .error (.fileNotFoundError ("Index file not found: " ++ st.index_path))
  | some idx =>
    match snap.metadataFile with
    | some m => .ok { st with index := some idx, metadata := m }
    | none => .ok { st with index := some idx }

/-- Configuration constants from app_config.py used by the retriever. -/
def SIMILARITY_THRESHOLD : ℚ := 3 / 5

/-- Default number of retrieval results from app_config.py. -/
def TOP_K_RESULTS : ℤ := 8

/-- Python list slice `l[:n]`, total over ℤ: a negative bound drops that
many elements from the end. -/
def pySliceTo {α : Type} (n : ℤ) (l : List α) : List α :=
  if 0 ≤ n then l.take n.toNat else l.take (l.length - n.natAbs)

/-- `EnhancedFactRetriever.retrieve_similar_facts` from src/retriever.py:
embeds the claim (the embedding model is an external collaborator, passed
as `emb`), over-fetches 2 x top_k candidates, filters by the similarity
threshold, falls back once to the unfiltered top 2 when the filter empties
a nonempty result, and slices to at most top_k.  `none` arguments take the
configured defaults.  No validation of `top_k` or of the threshold is
performed anywhere in the function. -/
def retrieve_similar_facts (emb : String → List ℚ) (st : VectorStore)
    (claim : String) (top_k? : Option ℤ) (similarity_threshold? : Option ℚ) :
    Except PyErr (List Candidate) :=
  match st.search (emb claim) ((top_k?.getD TOP_K_RESULTS) * 2) with
  | .error e => .error e
  | .ok initial_results =>
    let filtered_results := initial_results.filter
      (fun r => decide ((similarity_threshold?.getD SIMILARITY_THRESHOLD) ≤ r.similarity))
    let final_results :=
      if filtered_results.isEmpty && !initial_results.isEmpty then
        initial_results.take 2
      else filtered_results
    .ok (pySliceTo (top_k?.getD TOP_K_RESULTS) final_results)

/-- The semantic_matches sub-dictionary of an LLM verification result. -/
structure SemanticMatches where
  entity_matches : List String
  conceptual_alignment : String
  wording_differences : String
deriving DecidableEq, Repr

/-- A Python dict holding a verification result: every field is optional,
matching dict key presence.  The llm_client always fills all fields; the
aggregator reads them defensively with `.get` defaults. -/
structure VerificationDict where
  verdict : Option String
  confidence : Option String
  reasoning : Option String
  key_evidence : Option (List String)
  semantic_matches : Option SemanticMatches
  retrieved_facts_count : Option ℤ
  retrieved_facts : Option (List Candidate)
deriving DecidableEq, Repr

/-- `GroqClient._get_fallback_response`: degraded result used when the LLM
response text cannot be parsed. -/
def get_fallback_response (retrieved_facts : List Candidate) (error_msg : String) :
    VerificationDict :=
  { verdict := some "UNVERIFIABLE"
    confidence := some "low"
    reasoning := some ("Analysis error: " ++ error_msg)
    key_evidence := some []
    semantic_matches := some ⟨[], "analysis_failed", "analysis_failed"⟩
    retrieved_facts_count := some (retrieved_facts.length : ℤ)
    retrieved_facts := some retrieved_facts }

/-- `GroqClient._get_error_response`: degraded result used when the API
call itself fails. -/
def get_error_response (error_msg : String) : VerificationDict :=
  { verdict := some "UNVERIFIABLE"
    confidence := some "very_low"
    reasoning := some ("Service error: " ++ error_msg)
    key_evidence := some []
    semantic_matches := some ⟨[], "service_unavailable", "service_unavailable"⟩
    retrieved_facts_count := some 0
    retrieved_facts := some [] }

/-- Left brace character (0x7b). -/
def lbrace : Char := Char.ofNat 123

/-- Right brace character (0x7d). -/
def rbrace : Char := Char.ofNat 125

/-- Python `str.find`: index of the first occurrence, -1 when absent. -/
def pyFind (s : List Char) (c : Char) : ℤ :=
  match s.findIdx? (fun x => x = c) with
  | some i => (i : ℤ)
  | none => -1

/-- Python `str.rfind`: index of the last occurrence, -1 when absent. -/
def pyRFind (s : List Char) (c : Char) : ℤ :=
  match s.reverse.findIdx? (fun x => x = c) with
  | some i => ((s.length - 1 - i : ℕ) : ℤ)
  | none => -1

/-- Python `str.strip`: whitespace removed from both ends. -/
def pyStrip (s : String) : String :=
  String.mk (((s.toList.dropWhile Char.isWhitespace).reverse.dropWhile
    Char.isWhitespace).reverse)

/-- `GroqClient._parse_enhanced_response`: extracts the first-brace to
last-brace slice, parses it (`json.loads` is the external `loads`
parameter, returning the exception text on failure), fills missing
required fields with "unknown" or [], defaults semantic_matches, and
attaches the retrieval info; any parse exception — including the raise
when no braces are found — lands in `_get_fallback_response`. -/
def parse_enhanced_response (loads : String → Except String VerificationDict)
    (response_text : String) (retrieved_facts : List Candidate) : VerificationDict :=
  let s := response_text.toList
  let start_idx := pyFind s lbrace
  let end_idx := pyRFind s rbrace
  if start_idx ≠ -1 ∧ end_idx ≠ -1 then
    let json_str := String.mk ((s.drop start_idx.toNat).take
      (end_idx.toNat + 1 - start_idx.toNat))
    match loads json_str with
    | .ok result =>
      { verdict := some (result.verdict.getD "unknown")
        confidence := some (result.confidence.getD "unknown")
        reasoning := some (result.reasoning.getD "unknown")
        key_evidence := some (result.key_evidence.getD [])
        semantic_matches := some
          (result.semantic_matches.getD ⟨[], "not_analyzed", "not_analyzed"⟩)
        retrieved_facts_count := some (retrieved_facts.length : ℤ)
        retrieved_facts := some retrieved_facts }
    | .error e => get_fallback_response retrieved_facts e
  else
    get_fallback_response retrieved_facts "No JSON found in response"

/-- Outcome of the HTTP round trip to the reasoning service: either some
transport-level exception (network error, bad status, missing response
fields) with its message, or the stripped-before-use content string. -/
inductive TransportOutcome where
  | failure (msg : String)
  | success (result_text : String)
deriving DecidableEq, Repr

/-- `GroqClient.fact_check_claim`: the whole request is wrapped in
try/except, so a transport failure becomes `_get_error_response` and a
successful response body goes through `_parse_enhanced_response`; every
path returns normally. -/
def fact_check_claim (loads : String → Except String VerificationDict)
    (outcome : TransportOutcome) (retrieved_facts : List Candidate) :
    Except PyErr VerificationDict :=
  match outcome with
  | .failure msg => .ok (get_error_response msg)
  | .success result_text =>
    .ok (parse_enhanced_response loads (pyStrip result_text) retrieved_facts)

/-- A spaCy named entity as passed through to the aggregated result. -/
structure Entity where
  text : String
  label : String
  description : Option String
deriving DecidableEq, Repr

/-- One entry of the claim_results list built by `FactChecker.check_claim`. -/
structure ClaimResult where
  claim : String
  verification_result : VerificationDict
deriving DecidableEq, Repr

/-- The dict returned by `FactChecker._aggregate_results`. -/
structure AggregatedResult where
  original_text : String
  verdict : String
  reasoning : String
  confidence : String
  claims_analyzed : List String
  verification_details : List ClaimResult
  entities_found : List Entity
  key_evidence : List String
  retrieved_facts_count : ℤ
deriving DecidableEq, Repr

/-- The dict returned by `FactChecker._get_no_claims_response` (a shape of
its own, with an `error` key and no key_evidence). -/
structure NoClaimsResponse where
  original_text : String
  verdict : String
  reasoning : String
  claims_analyzed : List String
  entities_found : List Entity
  confidence : String
  error : String
deriving DecidableEq, Repr

/-- `FactChecker._get_no_claims_response`. -/
def get_no_claims_response (text : String) : NoClaimsResponse :=
  { original_text := text
    verdict := "UNVERIFIABLE"
    reasoning := "No verifiable factual claims could be extracted from the input."
    claims_analyzed := []
    entities_found := []
    confidence := "low"
    error := "No factual claims detected" }

/-- `FactChecker._aggregate_results`: indexes `claim_results[0]` (an
IndexError on an empty list, which `check_claim` never passes), then takes
verdict, reasoning, confidence, key_evidence and retrieved_facts_count
from the primary result with `.get` defaults, and lists every claim text
in order. -/
def aggregate_results (text : String) (claim_results : List ClaimResult)
    (entities : List Entity) : Except PyErr AggregatedResult :=
  match claim_results with
  | [] => .error (.indexError "list index out of range")
  | primary :: _ =>
    let primary_result := primary.verification_result
    .ok { original_text := text
          verdict := primary_result.verdict.getD "UNVERIFIABLE"
          reasoning := primary_result.reasoning.getD "No reasoning provided"
          confidence := primary_result.confidence.getD "low"
          claims_analyzed := claim_results.map (fun r => r.claim)
          verification_details := claim_results
          entities_found := entities
          key_evidence := primary_result.key_evidence.getD []
          retrieved_facts_count := primary_result.retrieved_facts_count.getD 0 }

/-- `ClaimExtractor.extract_claims`: spaCy sentence segmentation (`sents`)
and the factual-pattern test (`isFactual`, a pure regex predicate) feed a
filter; when nothing survives, the whole input text becomes the single
claim; at most 3 claims are returned. -/
def extract_claims (sents : String → List String) (isFactual : String → Bool)
    (text : String) : List String :=
  let claims := ((sents text).map pyStrip).filter isFactual
  (if claims.isEmpty then [text] else claims).take 3

/-- The per-claim loop of `FactChecker.check_claim`: for each claim in
order, retrieve evidence then verify; any raised exception aborts the loop
(none can occur — retrieval and verification always return normally). -/
def process_claims (emb : String → List ℚ) (st : VectorStore)
    (verifier : String → List Candidate → TransportOutcome)
    (loads : String → Except String VerificationDict) :
    List String → Except PyErr (List ClaimResult)
  | [] => .ok []
  | claim :: rest =>
    match retrieve_similar_facts emb st claim none none with
    | .error e => .error e
    | .ok retrieved_facts =>
      match fact_check_claim loads (verifier claim retrieved_facts) retrieved_facts with
      | .error e => .error e
      | .ok verification_result =>
        match process_claims emb st verifier loads rest with
        | .error e => .error e
        | .ok rs => .ok ({ claim := claim, verification_result := verification_result } :: rs)

/-- The two result shapes `FactChecker.check_claim` can return. -/
inductive CheckOutcome where
  | noClaims (r : NoClaimsResponse)
  | checked (r : AggregatedResult)
deriving DecidableEq, Repr

/-- `FactChecker.check_claim`: extract claims and entities, short-circuit
to the fixed no-claims response when no claim was extracted, otherwise run
the per-claim loop and aggregate. -/
def check_claim (sents : String → List String) (isFactual : String → Bool)
    (entsOf : String → List Entity) (emb : String → List ℚ) (st : VectorStore)
    (verifier : String → List Candidate → TransportOutcome)
    (loads : String → Except String VerificationDict)
    (text : String) : Except PyErr CheckOutcome :=
  let claims := extract_claims sents isFactual text
  let entities := entsOf text
  if claims.isEmpty then .ok (.noClaims (get_no_claims_response text))
  else
    match process_claims emb st verifier loads claims with
    | .error e => .error e
    | .ok claim_results =>
      match aggregate_results text claim_results entities with
      | .error e => .error e
      | .ok agg => .ok (.checked agg)

/-! Helper lemmas shared by several results. -/

theorem filter_replicate_nil {α : Type} (p : α → Bool) (a : α) (n : ℕ)
    (hp : p a = false) : (List.replicate n a).filter p = [] := by
  induction n with
  | zero => rfl
  | succ m ih => simp [List.replicate_succ, List.filter_cons, hp, ih]

theorem search_always_ok (st : VectorStore) (q : List ℚ) (k : ℤ) :
    ∃ l, st.search q k = .ok l := by
  unfold VectorStore.search
  cases st.index with
  | none => exact ⟨[], rfl⟩
  | some idx =>
    by_cases h1 : idx.vecs.length = 0
    · exact ⟨[], by simp [h1]⟩
    · by_cases h2 : q.length ≠ idx.d
      · exact ⟨[], by simp [h1, h2]⟩
      · exact ⟨List.map (toCandidate st.metadata)
          (List.filter (fun p => decide (p.1 < (st.metadata.length : ℤ) ∧ 0 < p.2))
            (idx.search q k)), by simp [h1, h2]⟩

theorem search_nonpos (st : VectorStore) (q : List ℚ) (k : ℤ) (hk : k ≤ 0) :
    st.search q k = .ok [] := by
  have hkn : k.toNat = 0 := Int.toNat_of_nonpos hk
  unfold VectorStore.search FaissIndex.search
  cases st.index with
  | none => rfl
  | some idx =>
    by_cases h1 : idx.vecs.length = 0
    · simp [h1]
    · by_cases h2 : q.length ≠ idx.d
      · simp [h1, h2]
      · simp [h1, h2, hkn]

theorem retrieve_always_ok (emb : String → List ℚ) (st : VectorStore) (claim : String)
    (tk : Option ℤ) (thr : Option ℚ) :
    ∃ l, retrieve_similar_facts emb st claim tk thr = .ok l := by
  obtain ⟨l, hl⟩ := search_always_ok st (emb claim) ((tk.getD TOP_K_RESULTS) * 2)
  unfold retrieve_similar_facts
  rw [hl]
  exact ⟨_, rfl⟩

theorem fact_check_always_ok (loads : String → Except String VerificationDict)
    (oc : TransportOutcome) (facts : List Candidate) :
    ∃ out, fact_check_claim loads oc facts = .ok out := by
  cases oc with
  | failure msg => exact ⟨_, rfl⟩
  | success t => exact ⟨_, rfl⟩

theorem process_claims_ok (emb : String → List ℚ) (st : VectorStore)
    (verifier : String → List Candidate → TransportOutcome)
    (loads : String → Except String VerificationDict) (claims : List String) :
    ∃ rs, process_claims emb st verifier loads claims = .ok rs ∧
      rs.length = claims.length := by
  induction claims with
  | nil => exact ⟨[], rfl, rfl⟩
  | cons c cs ih =>
    obtain ⟨l, hl⟩ := retrieve_always_ok emb st c none none
    obtain ⟨v, hv⟩ := fact_check_always_ok loads (verifier c l) l
    obtain ⟨rs, hrs, hlen⟩ := ih
    refine ⟨⟨c, v⟩ :: rs, ?_, by simp [hlen]⟩
    unfold process_claims
    rw [hl]
    simp only [hv, hrs]

theorem pyShape1_uniform (es : List (List ℚ)) (w : ℕ) (h : pyShape1 es = some w) :
    ∀ v ∈ es, v.length = w := by
  cases es with
  | nil => simp [pyShape1] at h
  | cons x xs =>
    simp only [pyShape1] at h
    by_cases hall : xs.all (fun u => decide (u.length = x.length))
    · rw [if_pos hall] at h
      have hw : x.length = w := by injection h
      subst hw
      intro v hv
      rcases List.mem_cons.mp hv with rfl | hv
      · rfl
      · have := List.all_eq_true.mp hall v hv
        simpa using this
    · rw [if_neg hall] at h
      exact absurd h (by simp)

theorem search_depends_on_index_metadata (st1 st2 : VectorStore)
    (hidx : st1.index = st2.index) (hm : st1.metadata = st2.metadata)
    (q : List ℚ) (k : ℤ) : st1.search q k = st2.search q k := by
  unfold VectorStore.search
  rw [hidx, hm]

theorem simPairs_fst_lt (idx : FaissIndex) (qn : List ℚ) :
    (simPairs idx qn).Pairwise (fun a b => a.1 < b.1) := by
  unfold simPairs
  refine List.Pairwise.map _ ?_ (List.pairwise_lt_range _)
  intro a b hab
  simpa using hab

theorem ratSqrt_one : ratSqrt 1 = some 1 := by
  simp [ratSqrt, (by decide : natSqrtL 1 = 1)]

theorem normalizeL2_normSq_one (v : List ℚ) (h : normSq v = 1) :
    normalizeL2 v = v := by
  unfold normalizeL2
  rw [h, ratSqrt_one]
  simp

theorem pySliceTo_nil {α : Type} (n : ℤ) : pySliceTo n ([] : List α) = [] := by
  simp [pySliceTo]

theorem mem_simPairs (idx : FaissIndex) (qn : List ℚ) (p : ℤ × ℚ)
    (hp : p ∈ simPairs idx qn) :
    ∃ i : ℕ, i < idx.vecs.length ∧ p = ((i : ℤ), dot qn (idx.vecs.getD i [])) := by
  simp only [simPairs, List.mem_map, List.mem_range] at hp
  rcases hp with ⟨i, hi, rfl⟩
  exact ⟨i, hi, rfl⟩

theorem simPairs_mem_intro (idx : FaissIndex) (qn : List ℚ) (i : ℕ)
    (hi : i < idx.vecs.length) :
    ((i : ℤ), dot qn (idx.vecs.getD i [])) ∈ simPairs idx qn := by
  simp only [simPairs, List.mem_map, List.mem_range]
  exact ⟨i, hi, rfl⟩

theorem getD_mem_of_lt {α : Type} (l : List α) (i : ℕ) (d : α) (h : i < l.length) :
    l.getD i d ∈ l := by
  rw [List.getD_eq_getElem l d h]
  exact List.getElem_mem h

theorem mem_faiss_search (idx : FaissIndex) (q : List ℚ) (k : ℤ) (p : ℤ × ℚ)
    (hp : p ∈ idx.search q k) :
    p ∈ simPairs idx (normalizeL2 q) ∨ p = ((-1 : ℤ), padSim) := by
  simp only [FaissIndex.search] at hp
  rcases List.mem_append.mp hp with hp | hp
  · exact Or.inl ((List.perm_insertionSort _ _).mem_iff.mp (List.mem_of_mem_take hp))
  · exact Or.inr (List.eq_of_mem_replicate hp)

theorem search_nonpositive_sims (st : VectorStore) (idx : FaissIndex) (q : List ℚ)
    (k : ℤ) (h : st.index = some idx)
    (hsims : ∀ v ∈ idx.vecs, dot (normalizeL2 q) v ≤ 0) :
    st.search q k = .ok [] := by
  unfold VectorStore.search
  rw [h]
  simp only []
  by_cases h1 : idx.vecs.length = 0
  · rw [if_pos h1]
  · rw [if_neg h1]
    by_cases h2 : q.length ≠ idx.d
    · rw [if_pos h2]
    · rw [if_neg h2]
      have hfil : (idx.search q k).filter
          (fun p => decide (p.1 < (st.metadata.length : ℤ) ∧ 0 < p.2)) = [] := by
        rw [List.filter_eq_nil_iff]
        intro p hp
        rcases mem_faiss_search idx q k p hp with hmem | rfl
        · rcases mem_simPairs idx (normalizeL2 q) p hmem with ⟨i, hi, rfl⟩
          have := hsims (idx.vecs.getD i []) (getD_mem_of_lt idx.vecs i [] hi)
          simp only [decide_eq_true_eq, not_and, not_lt]
          intro _
          exact this
        · simp [padSim]
      rw [hfil]
      rfl

theorem retrieve_nonpositive_sims (emb : String → List ℚ) (st : VectorStore)
    (idx : FaissIndex) (claim : String) (tk : Option ℤ) (thr : Option ℚ)
    (h : st.index = some idx)
    (hsims : ∀ v ∈ idx.vecs, dot (normalizeL2 (emb claim)) v ≤ 0) :
    retrieve_similar_facts emb st claim tk thr = .ok [] := by
  have hs := search_nonpositive_sims st idx (emb claim) ((tk.getD TOP_K_RESULTS) * 2)
    h hsims
  unfold retrieve_similar_facts
  rw [hs]
  simp [pySliceTo_nil]

theorem isEmpty_false_of_ne_nil {α : Type} (l : List α) (h : l ≠ []) :
    l.isEmpty = false := by
  cases l with
  | nil => exact absurd rfl h
  | cons a t => rfl

/-! Claim theorems. -/

/-- C2: for every non-empty ordered sequence of per-claim results,
aggregation takes verdict, confidence, reasoning and key evidence from the
first result, filling absent fields with UNVERIFIABLE, low, the generic
no-reasoning string and the empty list respectively, and claims_analyzed
is the ordered list of all claim texts; in particular a first-TRUE,
second-FALSE pair aggregates to TRUE with two claims analyzed. -/
theorem aggregate_first_result_primary (text : String) (r : ClaimResult)
    (rest : List ClaimResult) (entities : List Entity) :
    (aggregate_results text (r :: rest) entities = .ok
      { original_text := text
        verdict := r.verification_result.verdict.getD "UNVERIFIABLE"
        reasoning := r.verification_result.reasoning.getD "No reasoning provided"
        confidence := r.verification_result.confidence.getD "low"
        claims_analyzed := (r :: rest).map (fun s => s.claim)
        verification_details := r :: rest
        entities_found := entities
        key_evidence := r.verification_result.key_evidence.getD []
        retrieved_facts_count := r.verification_result.retrieved_facts_count.getD 0 }) ∧
    ((aggregate_results "t"
        [⟨"c1", ⟨some "TRUE", some "high", some "r1", some [], none, some 1, none⟩⟩,
         ⟨"c2", ⟨some "FALSE", some "high", some "r2", some [], none, some 1, none⟩⟩]
        []).map (fun a => (a.verdict, a.claims_analyzed.length))) = .ok ("TRUE", 2) := by
  exact ⟨rfl, rfl⟩

/-- C3: for every aligned store (metadata parallel to the stored
vectors) and every valid-length query, search returns precisely the top k
eligible candidates by similarity descending: at most k rows, ordered
descending with exact ties broken by lower insertion id; every returned
row is a stored record with positive similarity and its metadata; and a
stored record with positive similarity is omitted only when the result is
already full with k rows, every one of which ranks before it (strictly
greater similarity, or equal similarity and strictly lower insertion id). -/
theorem search_descending_tiebreak (st : VectorStore) (idx : FaissIndex)
    (q : List ℚ) (k : ℤ) (res : List Candidate)
    (hidx : st.index = some idx)
    (halign : st.metadata.length = idx.vecs.length)
    (hq : q.length = idx.d)
    (h : st.search q k = .ok res) :
    res.length ≤ k.toNat ∧
    res.Pairwise (fun a b => b.similarity ≤ a.similarity ∧
      (a.similarity = b.similarity → a.id < b.id)) ∧
    (∀ c ∈ res, ∃ i : ℕ, i < idx.vecs.length ∧
      0 < dot (normalizeL2 q) (idx.vecs.getD i []) ∧
      c = toCandidate st.metadata ((i : ℤ), dot (normalizeL2 q) (idx.vecs.getD i []))) ∧
    (∀ i : ℕ, i < idx.vecs.length → 0 < dot (normalizeL2 q) (idx.vecs.getD i []) →
      (∀ c ∈ res, c.id ≠ (i : ℤ)) →
      res.length = k.toNat ∧
      ∀ c ∈ res, dot (normalizeL2 q) (idx.vecs.getD i []) ≤ c.similarity ∧
        (c.similarity = dot (normalizeL2 q) (idx.vecs.getD i []) → c.id < (i : ℤ))) := by
  unfold VectorStore.search at h
  rw [hidx] at h
  simp only [] at h
  by_cases h1 : idx.vecs.length = 0
  · rw [if_pos h1] at h
    have hres : ([] : List Candidate) = res := by injection h
    subst hres
    refine ⟨by simp, by simp, by simp, ?_⟩
    intro i hi
    exact absurd hi (by omega)
  · rw [if_neg h1, if_neg (not_not_intro hq)] at h
    have hres : List.map (toCandidate st.metadata)
        (List.filter (fun p => decide (p.1 < (st.metadata.length : ℤ) ∧ 0 < p.2))
          (idx.search q k)) = res := by injection h
    subst hres
    have hperm : (List.insertionSort rankBefore (simPairs idx (normalizeL2 q))).Perm
        (simPairs idx (normalizeL2 q)) := List.perm_insertionSort _ _
    have hsort : (List.insertionSort rankBefore (simPairs idx (normalizeL2 q))).Pairwise
        rankBefore := List.sorted_insertionSort rankBefore (simPairs idx (normalizeL2 q))
    have hmem_dec : ∀ p ∈ List.insertionSort rankBefore (simPairs idx (normalizeL2 q)),
        ∃ i : ℕ, i < idx.vecs.length ∧
          p = ((i : ℤ), dot (normalizeL2 q) (idx.vecs.getD i [])) :=
      fun p hp => mem_simPairs _ _ _ (hperm.mem_iff.mp hp)
    have hmem_intro : ∀ i : ℕ, i < idx.vecs.length →
        ((i : ℤ), dot (normalizeL2 q) (idx.vecs.getD i [])) ∈
          List.insertionSort rankBefore (simPairs idx (normalizeL2 q)) :=
      fun i hi => hperm.mem_iff.mpr (simPairs_mem_intro idx (normalizeL2 q) i hi)
    have hrepl := filter_replicate_nil
      (fun p : ℤ × ℚ => decide (p.1 < (st.metadata.length : ℤ) ∧ 0 < p.2))
      ((-1 : ℤ), padSim)
      (k.toNat - (List.insertionSort rankBefore (simPairs idx (normalizeL2 q))).length)
      (by simp [padSim])
    have hfil_raw : (idx.search q k).filter
        (fun p => decide (p.1 < (st.metadata.length : ℤ) ∧ 0 < p.2)) =
        ((List.insertionSort rankBefore (simPairs idx (normalizeL2 q))).take
          k.toNat).filter
          (fun p => decide (p.1 < (st.metadata.length : ℤ) ∧ 0 < p.2)) := by
      have hraw : idx.search q k =
          (List.insertionSort rankBefore (simPairs idx (normalizeL2 q))).take k.toNat ++
            List.replicate
              (k.toNat -
                (List.insertionSort rankBefore (simPairs idx (normalizeL2 q))).length)
              ((-1 : ℤ), padSim) := rfl
      rw [hraw, List.filter_append, hrepl, List.append_nil]
    rw [hfil_raw]
    have hpred_pos : ∀ i : ℕ, i < idx.vecs.length →
        0 < dot (normalizeL2 q) (idx.vecs.getD i []) →
        (fun p : ℤ × ℚ => decide (p.1 < (st.metadata.length : ℤ) ∧ 0 < p.2))
          ((i : ℤ), dot (normalizeL2 q) (idx.vecs.getD i [])) = true := by
      intro i hi hpos
      simp only [decide_eq_true_eq]
      refine ⟨?_, hpos⟩
      rw [halign]
      exact_mod_cast hi
    refine ⟨?_, ?_, ?_, ?_⟩
    · rw [List.length_map]
      have hle1 := List.length_filter_le
        (fun p : ℤ × ℚ => decide (p.1 < (st.metadata.length : ℤ) ∧ 0 < p.2))
        ((List.insertionSort rankBefore (simPairs idx (normalizeL2 q))).take k.toNat)
      have hle2 := List.length_take_le k.toNat
        (List.insertionSort rankBefore (simPairs idx (normalizeL2 q)))
      omega
    · have hne_pairs : (simPairs idx (normalizeL2 q)).Pairwise (fun a b => a.1 ≠ b.1) :=
        (simPairs_fst_lt idx (normalizeL2 q)).imp (fun hab => ne_of_lt hab)
      have hne2 : (List.insertionSort rankBefore (simPairs idx (normalizeL2 q))).Pairwise
          (fun a b => a.1 ≠ b.1) :=
        (hperm.pairwise_iff (fun hab => Ne.symm hab)).mpr hne_pairs
      have hcomb := hsort.and hne2
      have htake := hcomb.sublist (List.take_sublist k.toNat _)
      have hfil := htake.filter
        (fun p : ℤ × ℚ => decide (p.1 < (st.metadata.length : ℤ) ∧ 0 < p.2))
      refine List.Pairwise.map _ ?_ hfil
      intro a b hab
      obtain ⟨hr, hne_ab⟩ := hab
      simp only [toCandidate]
      constructor
      · rcases hr with hlt | ⟨heq, _⟩
        · exact le_of_lt hlt
        · exact le_of_eq heq.symm
      · intro heq2
        rcases hr with hlt | ⟨_, hle⟩
        · exact absurd (heq2 ▸ hlt) (lt_irrefl _)
        · exact lt_of_le_of_ne hle hne_ab
    · intro c hc
      rcases List.mem_map.mp hc with ⟨x, hxf, rfl⟩
      obtain ⟨hx_take, hx_pred⟩ := List.mem_filter.mp hxf
      rcases hmem_dec x (List.mem_of_mem_take hx_take) with ⟨i, hi, rfl⟩
      refine ⟨i, hi, ?_, rfl⟩
      simp only [decide_eq_true_eq] at hx_pred
      exact hx_pred.2
    · intro i hi hpos homit
      have hpx_sorted := hmem_intro i hi
      have hpx_pred := hpred_pos i hi hpos
      have hpx_not_take : ((i : ℤ), dot (normalizeL2 q) (idx.vecs.getD i [])) ∉
          (List.insertionSort rankBefore (simPairs idx (normalizeL2 q))).take k.toNat := by
        intro hin
        have hcmem : toCandidate st.metadata
            ((i : ℤ), dot (normalizeL2 q) (idx.vecs.getD i [])) ∈
            List.map (toCandidate st.metadata)
              (((List.insertionSort rankBefore (simPairs idx (normalizeL2 q))).take
                k.toNat).filter
                (fun p => decide (p.1 < (st.metadata.length : ℤ) ∧ 0 < p.2))) :=
          List.mem_map_of_mem _ (List.mem_filter.mpr ⟨hin, hpx_pred⟩)
        exact homit _ hcmem rfl
      have hpx_drop : ((i : ℤ), dot (normalizeL2 q) (idx.vecs.getD i [])) ∈
          (List.insertionSort rankBefore (simPairs idx (normalizeL2 q))).drop k.toNat := by
        have hs : (List.insertionSort rankBefore (simPairs idx (normalizeL2 q))).take
            k.toNat ++
            (List.insertionSort rankBefore (simPairs idx (normalizeL2 q))).drop k.toNat =
            List.insertionSort rankBefore (simPairs idx (normalizeL2 q)) :=
          List.take_append_drop _ _
        have hmem2 : ((i : ℤ), dot (normalizeL2 q) (idx.vecs.getD i [])) ∈
            (List.insertionSort rankBefore (simPairs idx (normalizeL2 q))).take k.toNat ++
              (List.insertionSort rankBefore (simPairs idx (normalizeL2 q))).drop
                k.toNat := by
          rw [hs]
          exact hpx_sorted
        rcases List.mem_append.mp hmem2 with hmem3 | hmem3
        · exact absurd hmem3 hpx_not_take
        · exact hmem3
      have hcross : ∀ x ∈ (List.insertionSort rankBefore
          (simPairs idx (normalizeL2 q))).take k.toNat,
          rankBefore x ((i : ℤ), dot (normalizeL2 q) (idx.vecs.getD i [])) := by
        have hsort2 : ((List.insertionSort rankBefore (simPairs idx (normalizeL2 q))).take
            k.toNat ++ (List.insertionSort rankBefore
              (simPairs idx (normalizeL2 q))).drop k.toNat).Pairwise rankBefore := by
          rw [List.take_append_drop]
          exact hsort
        exact fun x hx => (List.pairwise_append.mp hsort2).2.2 x hx _ hpx_drop
      have htake_pred : ∀ x ∈ (List.insertionSort rankBefore
          (simPairs idx (normalizeL2 q))).take k.toNat,
          (fun p : ℤ × ℚ => decide (p.1 < (st.metadata.length : ℤ) ∧ 0 < p.2)) x =
            true := by
        intro x hx
        rcases hmem_dec x (List.mem_of_mem_take hx) with ⟨j, hj, rfl⟩
        have hposx : 0 < dot (normalizeL2 q) (idx.vecs.getD j []) := by
          rcases hcross _ hx with hlt | ⟨heq, -⟩
          · exact lt_trans hpos hlt
          · exact lt_of_lt_of_le hpos (le_of_eq heq.symm)
        exact hpred_pos j hj hposx
      have hfull := List.filter_eq_self.mpr htake_pred
      have hlen_take : ((List.insertionSort rankBefore
          (simPairs idx (normalizeL2 q))).take k.toNat).length = k.toNat := by
        have hdrop_ne : (List.insertionSort rankBefore
            (simPairs idx (normalizeL2 q))).drop k.toNat ≠ [] := by
          intro h0
          rw [h0] at hpx_drop
          exact (List.not_mem_nil _) hpx_drop
        have hklen : k.toNat < (List.insertionSort rankBefore
            (simPairs idx (normalizeL2 q))).length := by
          by_contra hle
          push_neg at hle
          exact hdrop_ne (List.drop_eq_nil_of_le hle)
        rw [List.length_take]
        omega
      constructor
      · rw [List.length_map, hfull, hlen_take]
      · intro c hc
        rcases List.mem_map.mp hc with ⟨x, hxf, rfl⟩
        have hx := (List.mem_filter.mp hxf).1
        have hr := hcross x hx
        simp only [toCandidate]
        constructor
        · rcases hr with hlt | ⟨heq, -⟩
          · exact le_of_lt hlt
          · exact le_of_eq heq.symm
        · intro heq2
          rcases hr with hlt | ⟨-, hle⟩
          · exact absurd (heq2 ▸ hlt) (lt_irrefl _)
          · refine lt_of_le_of_ne hle ?_
            have hne_id := homit _ hc
            simpa [toCandidate] using hne_id

/-- C3 witness: two identical vectors tie exactly; both are returned (the
result is complete), the earlier insertion id first, and the maximality
clause holds at every stored record. -/
theorem search_descending_tiebreak_witness :
    VectorStore.search ⟨"i", "m", some ⟨2, [[1, 0], [1, 0]]⟩, [⟨"a", none⟩, ⟨"b", none⟩]⟩
        [1, 0] 2 =
      .ok [⟨1, "a", "unknown", 0⟩, ⟨1, "b", "unknown", 1⟩] ∧
    (([⟨1, "a", "unknown", 0⟩, ⟨1, "b", "unknown", 1⟩] : List Candidate).length ≤
        (2 : ℤ).toNat ∧
      ([⟨1, "a", "unknown", 0⟩, ⟨1, "b", "unknown", 1⟩] : List Candidate).Pairwise
        (fun a b => b.similarity ≤ a.similarity ∧
          (a.similarity = b.similarity → a.id < b.id)) ∧
      (∀ c ∈ ([⟨1, "a", "unknown", 0⟩, ⟨1, "b", "unknown", 1⟩] : List Candidate),
        ∃ i : ℕ, i < ([[1, 0], [1, 0]] : List (List ℚ)).length ∧
          0 < dot (normalizeL2 [1, 0]) (([[1, 0], [1, 0]] : List (List ℚ)).getD i []) ∧
          c = toCandidate [⟨"a", none⟩, ⟨"b", none⟩]
            ((i : ℤ),
              dot (normalizeL2 [1, 0]) (([[1, 0], [1, 0]] : List (List ℚ)).getD i []))) ∧
      (∀ i : ℕ, i < ([[1, 0], [1, 0]] : List (List ℚ)).length →
        0 < dot (normalizeL2 [1, 0]) (([[1, 0], [1, 0]] : List (List ℚ)).getD i []) →
        (∀ c ∈ ([⟨1, "a", "unknown", 0⟩, ⟨1, "b", "unknown", 1⟩] : List Candidate),
          c.id ≠ (i : ℤ)) →
        ([⟨1, "a", "unknown", 0⟩, ⟨1, "b", "unknown", 1⟩] : List Candidate).length =
            (2 : ℤ).toNat ∧
        ∀ c ∈ ([⟨1, "a", "unknown", 0⟩, ⟨1, "b", "unknown", 1⟩] : List Candidate),
          dot (normalizeL2 [1, 0]) (([[1, 0], [1, 0]] : List (List ℚ)).getD i []) ≤
              c.similarity ∧
            (c.similarity =
                dot (normalizeL2 [1, 0]) (([[1, 0], [1, 0]] : List (List ℚ)).getD i []) →
              c.id < (i : ℤ)))) := by
  have hnorm : normalizeL2 [(1 : ℚ), 0] = [1, 0] :=
    normalizeL2_normSq_one [1, 0] (by norm_num [normSq, dot])
  have h : VectorStore.search
      ⟨"i", "m", some ⟨2, [[1, 0], [1, 0]]⟩, [⟨"a", none⟩, ⟨"b", none⟩]⟩ [1, 0] 2 =
      .ok [⟨1, "a", "unknown", 0⟩, ⟨1, "b", "unknown", 1⟩] := by
    norm_num [VectorStore.search, FaissIndex.search, simPairs, hnorm,
      List.range_succ, dot, List.insertionSort, List.orderedInsert, rankBefore,
      toCandidate, pyGetMeta, (by decide : (2 : ℤ).toNat = 2)]
  exact ⟨h, search_descending_tiebreak
    ⟨"i", "m", some ⟨2, [[1, 0], [1, 0]]⟩, [⟨"a", none⟩, ⟨"b", none⟩]⟩
    ⟨2, [[1, 0], [1, 0]]⟩ [1, 0] 2 _ rfl rfl rfl h⟩


/-- C1 counterexample: an index with exactly 3 records all below the
threshold — here all at similarity exactly 0 to the query — makes
retrieve with top_k = 5 and threshold 0.6 return 0 candidates, not 2:
records with similarity ≤ 0 never enter the unfiltered candidate list, so
the fallback never fires. -/
theorem retrieve_three_low_records_cx :
    retrieve_similar_facts (fun _ => [1, 0])
      ⟨"i", "m", some ⟨2, [[0, 1], [0, 1], [0, 1]]⟩,
        [⟨"a", none⟩, ⟨"b", none⟩, ⟨"c", none⟩]⟩ "claim" (some 5) (some (3 / 5)) =
      .ok [] := by
  have hnorm : normalizeL2 [(1 : ℚ), 0] = [1, 0] :=
    normalizeL2_normSq_one [1, 0] (by norm_num [normSq, dot])
  refine retrieve_nonpositive_sims _ _ ⟨2, [[0, 1], [0, 1], [0, 1]]⟩ _ _ _ rfl ?_
  intro v hv
  simp only [List.mem_cons, List.not_mem_nil, or_false] at hv
  rcases hv with rfl | rfl | rfl <;> norm_num [dot, hnorm]

/-- C1 (amended): retrieve queries the index for 2 x top_k candidates,
filters by the threshold, falls back once (never recursively) to the
unfiltered top 2 when the filter empties a nonempty candidate list, and
truncates to top_k in similarity-descending order; for an index with
exactly 3 records whose similarities to the query are strictly between 0
and the threshold, retrieve with top_k = 5 and threshold 0.6 returns
exactly 2 candidates. -/
theorem retrieve_fallback_three_below_threshold
    (emb : String → List ℚ) (claim : String) (st : VectorStore) (idx : FaissIndex)
    (hidx : st.index = some idx)
    (hv : idx.vecs.length = 3) (hm : st.metadata.length = 3)
    (hq : (emb claim).length = idx.d)
    (hsim : ∀ v ∈ idx.vecs, 0 < dot (normalizeL2 (emb claim)) v ∧
      dot (normalizeL2 (emb claim)) v < 3 / 5) :
    ∃ l, retrieve_similar_facts emb st claim (some 5) (some (3 / 5)) = .ok l ∧
      l.length = 2 := by
  have hplen : (simPairs idx (normalizeL2 (emb claim))).length = 3 := by
    simp [simPairs, hv]
  set sorted := List.insertionSort rankBefore (simPairs idx (normalizeL2 (emb claim)))
    with hsorted_def
  have hslen : sorted.length = 3 := by
    rw [hsorted_def, (List.perm_insertionSort rankBefore _).length_eq, hplen]
  have hmem_sorted : ∀ p ∈ sorted, ∃ i : ℕ, i < idx.vecs.length ∧
      p = ((i : ℤ), dot (normalizeL2 (emb claim)) (idx.vecs.getD i [])) := by
    intro p hp
    rw [hsorted_def] at hp
    exact mem_simPairs _ _ _ ((List.perm_insertionSort _ _).mem_iff.mp hp)
  have hsearch : st.search (emb claim) 10 = .ok (sorted.map (toCandidate st.metadata)) := by
    unfold VectorStore.search
    rw [hidx]
    simp only []
    rw [if_neg (by omega : ¬idx.vecs.length = 0), if_neg (not_not_intro hq)]
    have hraw : idx.search (emb claim) 10 =
        sorted ++ List.replicate (10 - 3) ((-1 : ℤ), padSim) := by
      simp only [FaissIndex.search]
      rw [← hsorted_def, (by decide : (10 : ℤ).toNat = 10),
        List.take_of_length_le (by rw [hslen]; norm_num), hslen]
    rw [hraw, List.filter_append]
    have hrepl := filter_replicate_nil
      (fun p : ℤ × ℚ => decide (p.1 < (st.metadata.length : ℤ) ∧ 0 < p.2))
      ((-1 : ℤ), padSim) (10 - 3) (by simp [padSim])
    rw [hrepl, List.append_nil]
    rw [List.filter_eq_self.mpr ?hall]
    case hall =>
      intro p hp
      rcases hmem_sorted p hp with ⟨i, hi, rfl⟩
      simp only [decide_eq_true_eq]
      constructor
      · rw [hm]
        exact_mod_cast (by omega : i < 3)
      · exact (hsim _ (getD_mem_of_lt idx.vecs i [] hi)).1
  have hthr : (sorted.map (toCandidate st.metadata)).filter
      (fun r => decide ((3 : ℚ) / 5 ≤ r.similarity)) = [] := by
    rw [List.filter_eq_nil_iff]
    intro c hc
    rcases List.mem_map.mp hc with ⟨p, hp, rfl⟩
    rcases hmem_sorted p hp with ⟨i, hi, rfl⟩
    simp only [toCandidate, decide_eq_true_eq, not_le]
    exact (hsim _ (getD_mem_of_lt idx.vecs i [] hi)).2
  have hmaplen : (sorted.map (toCandidate st.metadata)).length = 3 := by
    rw [List.length_map, hslen]
  have hne : (sorted.map (toCandidate st.metadata)).isEmpty = false := by
    cases hcase : sorted.map (toCandidate st.metadata) with
    | nil => rw [hcase] at hmaplen; simp at hmaplen
    | cons a t => rfl
  refine ⟨(sorted.map (toCandidate st.metadata)).take 2, ?_, ?_⟩
  · unfold retrieve_similar_facts
    simp only [Option.getD_some]
    rw [(by norm_num : (5 : ℤ) * 2 = 10), hsearch]
    simp only [hthr, hne]
    norm_num [pySliceTo, List.take_take, (by decide : (5 : ℤ).toNat = 5)]
  · rw [List.length_take, hmaplen]
    norm_num

/-- C1 witness: three records at similarity one third, query at the unit
vector, top_k = 5, threshold 0.6 — exactly two candidates come back. -/
theorem retrieve_fallback_three_below_threshold_witness :
    ∃ l, retrieve_similar_facts (fun _ => [1, 0, 0])
      ⟨"i", "m", some ⟨3, [[1/3, 2/3, 2/3], [1/3, 2/3, 2/3], [1/3, 2/3, 2/3]]⟩,
        [⟨"a", none⟩, ⟨"b", none⟩, ⟨"c", none⟩]⟩ "claim" (some 5) (some (3 / 5)) =
      .ok l ∧ l.length = 2 := by
  have hnorm : normalizeL2 [(1 : ℚ), 0, 0] = [1, 0, 0] :=
    normalizeL2_normSq_one [1, 0, 0] (by norm_num [normSq, dot])
  refine retrieve_fallback_three_below_threshold (fun _ => [1, 0, 0]) "claim" _
    ⟨3, [[1/3, 2/3, 2/3], [1/3, 2/3, 2/3], [1/3, 2/3, 2/3]]⟩ rfl (by simp) (by simp)
    (by simp) ?_
  intro v hv
  simp only [List.mem_cons, List.not_mem_nil, or_false] at hv
  rcases hv with rfl | rfl | rfl <;> constructor <;> norm_num [dot, hnorm]

/-- C4 counterexample: on a dimension-mismatched query the source search
returns the empty list as a normal value, the same value an empty index
produces, instead of failing with an error. -/
theorem search_dim_mismatch_cx :
    VectorStore.search ⟨"i", "m", some ⟨2, [[1, 0]]⟩, [⟨"doc", none⟩]⟩ [1, 2, 3] 3 =
      .ok [] ∧
    VectorStore.search ⟨"i", "m", some ⟨2, []⟩, []⟩ [1, 2] 3 = .ok [] := by
  constructor
  · norm_num [VectorStore.search]
  · norm_num [VectorStore.search]

/-- C4 (amended): for every initialized non-empty index, a query whose
length differs from the index dimension makes search return the empty
list (after printing a diagnostic) without raising; the store is not
modified (search never mutates it). -/
theorem search_dim_mismatch_empty (st : VectorStore) (idx : FaissIndex)
    (q : List ℚ) (k : ℤ) (h1 : st.index = some idx) (h2 : idx.vecs.length ≠ 0)
    (h3 : q.length ≠ idx.d) : st.search q k = .ok [] := by
  simp [VectorStore.search, h1, h2, h3]

/-- C4 witness. -/
theorem search_dim_mismatch_empty_witness :
    VectorStore.search ⟨"a", "b", some ⟨4, [[1, 0, 0, 0]]⟩, [⟨"x", none⟩]⟩ [1, 2] 7 =
      .ok [] :=
  search_dim_mismatch_empty _ ⟨4, [[1, 0, 0, 0]]⟩ [1, 2] 7 rfl (by simp) (by simp)

/-- C5: add_embeddings with a batch whose length disagrees with the
metadata length, or containing a vector whose length differs from the
index dimension, raises before any mutation, so the failing call leaves
the store (count and metadata) unchanged. -/
theorem add_embeddings_dimension_guard (st : VectorStore) (idx : FaissIndex)
    (embeddings : List (List ℚ)) (metadata : List MetaRecord)
    (h : st.index = some idx)
    (hbad : embeddings.length ≠ metadata.length ∨
      ∃ v ∈ embeddings, v.length ≠ idx.d) :
    ∃ e, st.add_embeddings embeddings metadata = .error e := by
  rcases hbad with hlen | ⟨v, hv, hvd⟩
  · exact ⟨.valueError "Number of embeddings must match number of metadata entries",
      by simp [VectorStore.add_embeddings, h, hlen]⟩
  · by_cases hlen : embeddings.length = metadata.length
    · cases hsh : pyShape1 embeddings with
      | none => exact ⟨.indexError "tuple index out of range",
          by simp [VectorStore.add_embeddings, h, hlen, hsh]⟩
      | some w =>
        have hw : w ≠ idx.d := by
          have := pyShape1_uniform embeddings w hsh v hv
          omega
        exact ⟨.valueError "Embedding dimension mismatch",
          by simp [VectorStore.add_embeddings, h, hlen, hsh, hw]⟩
    · exact ⟨.valueError "Number of embeddings must match number of metadata entries",
        by simp [VectorStore.add_embeddings, h, hlen]⟩

/-- C5 witness: a 2-dimensional index rejects a batch containing one
vector of length 3. -/
theorem add_embeddings_dimension_guard_witness :
    ∃ e, VectorStore.add_embeddings ⟨"i", "m", some ⟨2, [[1, 0]]⟩, [⟨"d", none⟩]⟩
      [[1, 0], [0, 1, 1]] [⟨"a", none⟩, ⟨"b", none⟩] = .error e :=
  add_embeddings_dimension_guard _ ⟨2, [[1, 0]]⟩ _ _ rfl
    (Or.inr ⟨[0, 1, 1], by simp, by simp⟩)

/-- C6 counterexample: a snapshot holding one vector and zero metadata
entries loads successfully — no CorruptSnapshot check exists — yielding a
store whose vector count (1) differs from its metadata count (0). -/
theorem load_count_mismatch_cx :
    VectorStore.load ⟨"idx", "meta", none, [⟨"old", none⟩]⟩
      ⟨some ⟨2, [[1, 0]]⟩, some []⟩ =
      .ok ⟨"idx", "meta", some ⟨2, [[1, 0]]⟩, []⟩ ∧
    (some (⟨2, [[1, 0]]⟩ : FaissIndex)).map (fun i => i.vecs.length) = some 1 ∧
    ([] : List MetaRecord).length = 0 := by
  exact ⟨rfl, rfl, rfl⟩

/-- C6 (amended): load performs no consistency validation between vector
count and metadata count; whenever the index file is present it succeeds,
installing the stored index and taking the stored metadata when present
(the previous metadata otherwise), counts disagreeing or not. -/
theorem load_installs_snapshot (st : VectorStore) (snap : Snapshot)
    (idx : FaissIndex) (h : snap.indexFile = some idx) :
    st.load snap = .ok { st with
      index := some idx
      metadata := snap.metadataFile.getD st.metadata } := by
  unfold VectorStore.load
  rw [h]
  cases hm : snap.metadataFile with
  | none => simp
  | some m => simp

/-- C6 witness. -/
theorem load_installs_snapshot_witness :
    VectorStore.load ⟨"p", "q", none, []⟩ ⟨some ⟨3, []⟩, some [⟨"c", none⟩]⟩ =
      .ok { (⟨"p", "q", none, []⟩ : VectorStore) with
        index := some ⟨3, []⟩
        metadata := (some [⟨"c", none⟩] : Option (List MetaRecord)).getD [] } :=
  load_installs_snapshot ⟨"p", "q", none, []⟩ ⟨some ⟨3, []⟩, some [⟨"c", none⟩]⟩
    ⟨3, []⟩ rfl

/-- C8 counterexample: retrieve with top_k = 0 on a populated store
returns the empty list as a normal result; no ConfigError (or any other
error) is raised, and no validation of top_k exists. -/
theorem retrieve_zero_topk_cx :
    retrieve_similar_facts (fun _ => [1, 0])
      ⟨"i", "m", some ⟨2, [[1, 0]]⟩, [⟨"doc", none⟩]⟩ "some claim" (some 0) none =
      .ok [] := by
  have hs := search_nonpos ⟨"i", "m", some ⟨2, [[1, 0]]⟩, [⟨"doc", none⟩]⟩
    ((fun (_ : String) => [(1 : ℚ), 0]) "some claim") (0 * 2) (by norm_num)
  unfold retrieve_similar_facts
  simp only [Option.getD_some] at hs ⊢
  rw [hs]
  simp [pySliceTo]

/-- C8 (amended): for every nonpositive top_k, retrieve performs the
(empty) search and returns the empty candidate list normally; it never
fails with ConfigError. -/
theorem retrieve_nonpos_topk_empty (emb : String → List ℚ) (st : VectorStore)
    (claim : String) (t : ℤ) (thr : Option ℚ) (ht : t ≤ 0) :
    retrieve_similar_facts emb st claim (some t) thr = .ok [] := by
  have h2 : t * 2 ≤ 0 := by linarith
  have hs := search_nonpos st (emb claim) (t * 2) h2
  unfold retrieve_similar_facts
  simp only [Option.getD_some] at hs ⊢
  rw [hs]
  simp [pySliceTo]

/-- C8 witness. -/
theorem retrieve_nonpos_topk_empty_witness :
    (-3 : ℤ) ≤ 0 ∧
    retrieve_similar_facts (fun _ => []) ⟨"", "", none, []⟩ "c" (some (-3)) none =
      .ok [] :=
  ⟨by norm_num,
    retrieve_nonpos_topk_empty (fun _ => []) ⟨"", "", none, []⟩ "c" (-3) none
      (by norm_num)⟩

/-- C7 counterexample: a response-parse failure (a response body holding
no JSON object) produces the fallback response with confidence "low", not
"very_low" as the claim states for parse failures. -/
theorem verifier_parse_confidence_cx :
    fact_check_claim (fun _ => .error "x") (.success "no json") [] =
      .ok (get_fallback_response [] "No JSON found in response") ∧
    (get_fallback_response [] "No JSON found in response").confidence = some "low" ∧
    (get_fallback_response [] "No JSON found in response").confidence ≠
      some "very_low" := by
  refine ⟨rfl, rfl, by simp [get_fallback_response]⟩

/-- C7 (amended): when the verifier call fails the engine returns a
complete result — verdict UNVERIFIABLE, the error description in the
reasoning, empty key evidence — and never propagates an exception; a
transport failure carries confidence "very_low" (service error) while a
response-parse failure carries confidence "low" (analysis error). -/
theorem verifier_failure_degraded (loads : String → Except String VerificationDict)
    (facts : List Candidate) (msg : String) (text : String)
    (hp : pyFind (pyStrip text).toList lbrace = -1 ∨
      pyRFind (pyStrip text).toList rbrace = -1) :
    (∃ out, fact_check_claim loads (.failure msg) facts = .ok out ∧
      out.verdict = some "UNVERIFIABLE" ∧ out.confidence = some "very_low" ∧
      out.reasoning = some ("Service error: " ++ msg) ∧ out.key_evidence = some []) ∧
    (∃ out, fact_check_claim loads (.success text) facts = .ok out ∧
      out.verdict = some "UNVERIFIABLE" ∧ out.confidence = some "low" ∧
      out.reasoning = some ("Analysis error: " ++ "No JSON found in response") ∧
      out.key_evidence = some []) ∧
    (∀ oc : TransportOutcome, ∃ out, fact_check_claim loads oc facts = .ok out) := by
  refine ⟨⟨get_error_response msg, rfl, rfl, rfl, rfl, rfl⟩, ?_, ?_⟩
  · refine ⟨get_fallback_response facts "No JSON found in response",
      ?_, rfl, rfl, rfl, rfl⟩
    unfold fact_check_claim parse_enhanced_response
    simp only []
    rw [if_neg ?_]
    rcases hp with hp | hp
    · exact fun hcond => hcond.1 hp
    · exact fun hcond => hcond.2 hp
  · intro oc
    cases oc with
    | failure m => exact ⟨_, rfl⟩
    | success t => exact ⟨_, rfl⟩

/-- C7 witness. -/
theorem verifier_failure_degraded_witness :
    (pyFind (pyStrip "plain text").toList lbrace = -1 ∨
      pyRFind (pyStrip "plain text").toList rbrace = -1) ∧
    ((∃ out, fact_check_claim (fun _ => .error "e") (.failure "boom") [] = .ok out ∧
      out.verdict = some "UNVERIFIABLE" ∧ out.confidence = some "very_low" ∧
      out.reasoning = some ("Service error: " ++ "boom") ∧
      out.key_evidence = some []) ∧
    (∃ out, fact_check_claim (fun _ => .error "e") (.success "plain text") [] =
        .ok out ∧
      out.verdict = some "UNVERIFIABLE" ∧ out.confidence = some "low" ∧
      out.reasoning = some ("Analysis error: " ++ "No JSON found in response") ∧
      out.key_evidence = some []) ∧
    (∀ oc : TransportOutcome, ∃ out,
      fact_check_claim (fun _ => .error "e") oc [] = .ok out)) :=
  ⟨Or.inl (by decide),
    verifier_failure_degraded (fun _ => .error "e") [] "boom" "plain text"
      (Or.inl (by decide))⟩

/-- C10: extract_claims always returns a non-empty list of at most 3
claims, falling back to the whole input text as a single claim when no
sentence passes the factual filter; consequently check_claim never takes
the no-claims branch and always returns the checked (aggregated) shape. -/
theorem extract_claims_nonempty_cap (sents : String → List String)
    (isFactual : String → Bool) (entsOf : String → List Entity)
    (emb : String → List ℚ) (st : VectorStore)
    (verifier : String → List Candidate → TransportOutcome)
    (loads : String → Except String VerificationDict) (text : String) :
    extract_claims sents isFactual text ≠ [] ∧
    (extract_claims sents isFactual text).length ≤ 3 ∧
    extract_claims sents (fun _ => false) text = [text] ∧
    ∃ r, check_claim sents isFactual entsOf emb st verifier loads text =
      .ok (.checked r) := by
  have hne : extract_claims sents isFactual text ≠ [] := by
    cases hcc : ((sents text).map pyStrip).filter isFactual with
    | nil => simp [extract_claims, hcc]
    | cons a t => simp [extract_claims, hcc]
  have htake : ∀ l : List String, (l.take 3).length ≤ 3 := by
    intro l
    rw [List.length_take]
    exact min_le_left _ _
  refine ⟨hne, ?_, ?_, ?_⟩
  · unfold extract_claims
    exact htake _
  · simp [extract_claims]
  · obtain ⟨rs, hrs, hlen⟩ :=
      process_claims_ok emb st verifier loads (extract_claims sents isFactual text)
    cases hrs_list : rs with
    | nil =>
      rw [hrs_list] at hlen
      exact absurd (List.length_eq_zero.mp hlen.symm) hne
    | cons r rest =>
      rw [hrs_list] at hrs
      refine ⟨{ original_text := text
                verdict := r.verification_result.verdict.getD "UNVERIFIABLE"
                reasoning := r.verification_result.reasoning.getD "No reasoning provided"
                confidence := r.verification_result.confidence.getD "low"
                claims_analyzed := (r :: rest).map (fun s => s.claim)
                verification_details := r :: rest
                entities_found := entsOf text
                key_evidence := r.verification_result.key_evidence.getD []
                retrieved_facts_count :=
                  r.verification_result.retrieved_facts_count.getD 0 }, ?_⟩
      simp only [check_claim, isEmpty_false_of_ne_nil _ hne, Bool.false_eq_true,
        if_false, hrs, aggregate_results]

/-- C9: restoring the persisted snapshot of any initialized (in
particular any non-empty) store, into any store object, yields a store
whose search results agree with the original on every query and every k. -/
theorem save_load_roundtrip (st st0 : VectorStore) (idx : FaissIndex)
    (h : st.index = some idx) (_hne : idx.vecs ≠ []) :
    ∃ snap st', st.save = .ok snap ∧ st0.load snap = .ok st' ∧
      ∀ q k, st'.search q k = st.search q k := by
  refine ⟨⟨some idx, some st.metadata⟩,
    { st0 with index := some idx, metadata := st.metadata }, ?_, rfl, ?_⟩
  · unfold VectorStore.save
    rw [h]
  · intro q k
    exact search_depends_on_index_metadata
      { st0 with index := some idx, metadata := st.metadata } st (by simp [h]) rfl q k

/-- C9 witness. -/
theorem save_load_roundtrip_witness :
    ∃ snap st', VectorStore.save ⟨"i", "m", some ⟨2, [[1, 0]]⟩, [⟨"d", none⟩]⟩ =
        .ok snap ∧
      VectorStore.load ⟨"x", "y", none, []⟩ snap = .ok st' ∧
      ∀ q k, st'.search q k =
        VectorStore.search ⟨"i", "m", some ⟨2, [[1, 0]]⟩, [⟨"d", none⟩]⟩ q k :=
  save_load_roundtrip ⟨"i", "m", some ⟨2, [[1, 0]]⟩, [⟨"d", none⟩]⟩
    ⟨"x", "y", none, []⟩ ⟨2, [[1, 0]]⟩ rfl (by simp)

end FactLLM
